import Mathlib

/-!
# Verification of the serdio-task aggregation / projection engine

Shallow embedding of the computational core of the timesheet dashboard:
the per-project aggregation (`calculateProjectSummaries`,
`calculateOverallTotals`), the per-project chart series
(`getChartData` / `getChartDataForProject` / `getEmptyChartData`) and the
year projection (`calculateYearProjection` / `getMonthName`), translated
from `projects-summary.component.ts` and `year-projection.component.ts`.

JavaScript numbers are modelled exactly: finite values as rationals plus
the special values `NaN` and the two signed infinities, with the IEEE
propagation rules for the operations the code performs (exact rational
arithmetic stands in for double rounding, which no claim concerns).
-/

namespace Serdio

/-- Model of a JavaScript number: a finite value (as an exact rational),
`NaN`, or a signed infinity (`inf true` = `+Infinity`). -/
inductive JsNum where
  | fin (q : ℚ)
  | nan
  | inf (pos : Bool)
deriving DecidableEq, Repr

/-- JavaScript multiplication on the `JsNum` model: `NaN` propagates,
`0 * Infinity = NaN`, infinities multiply by sign. -/
def jsMul : JsNum → JsNum → JsNum
  | .fin a, .fin b => .fin (a * b)
  | .fin a, .inf p => if a = 0 then .nan else .inf (decide (0 < a) == p)
  | .inf p, .fin b => if b = 0 then .nan else .inf (p == decide (0 < b))
  | .inf p, .inf q => .inf (p == q)
  | _, _ => .nan

/-- JavaScript division on the `JsNum` model: `0 / 0 = NaN`,
`q / 0 = ±Infinity` for finite `q ≠ 0`, `NaN` propagates,
finite / infinite = 0, infinite / infinite = NaN. -/
def jsDiv : JsNum → JsNum → JsNum
  | .fin a, .fin b =>
      if b = 0 then (if a = 0 then .nan else .inf (decide (0 < a))) else .fin (a / b)
  | .fin _, .inf _ => .fin 0
  | .inf p, .fin b => .inf (p == decide (0 ≤ b))
  | .inf _, .inf _ => .nan
  | _, _ => .nan

/-- `Employee` record (employee.model / employee-grid). -/
structure Employee where
  id : ℕ
  firstName : String
  lastName : String
  fullName : String
  annualSalary : ℚ
  hourlyRate : ℚ
deriving DecidableEq, Repr

/-- `Project` record; the engine reads only `id`, `name` and `status`
(dates and budget never enter the computations). -/
structure Project where
  id : ℕ
  name : String
  description : String
  status : String
deriving DecidableEq, Repr

/-- `EmployeeWorkData` / `ProjectWorkData`: one work-assignment fact. -/
structure EmployeeWorkData where
  employeeId : ℕ
  projectId : ℕ
  hoursWorked : ℚ
  monetaryValue : ℚ
deriving DecidableEq, Repr

/-- `ProjectSummary` (project-summary.model). The two averages are kept in
the full JavaScript-number domain because they come out of a division. -/
structure ProjectSummary where
  projectId : ℕ
  projectName : String
  projectStatus : String
  totalHours : ℚ
  totalValue : ℚ
  employeeCount : ℕ
  averageHoursPerEmployee : JsNum
  averageValuePerEmployee : JsNum
deriving DecidableEq, Repr

/-- `OverallTotals` (project-summary.model). -/
structure OverallTotals where
  totalHours : ℚ
  totalValue : ℚ
  totalEmployees : ℕ
deriving DecidableEq, Repr

/-- `calculateProjectSummaries` of `ProjectsSummaryComponent`: one summary
per project, filtering the work data by `projectId`, summing hours and
value, counting distinct employee ids (`new Set(...).size` = length of
`dedup`), with the ternary zero-guard on both averages. -/
def calculateProjectSummaries (projects : List Project)
    (workData : List EmployeeWorkData) : List ProjectSummary :=
  projects.map fun project =>
    let projectWorkData := workData.filter fun data => data.projectId == project.id
    let totalHours := projectWorkData.foldl (fun sum data => sum + data.hoursWorked) 0
    let totalValue := projectWorkData.foldl (fun sum data => sum + data.monetaryValue) 0
    let employeeCount := (projectWorkData.map (·.employeeId)).dedup.length
    { projectId := project.id
      projectName := project.name
      projectStatus := project.status
      totalHours := totalHours
      totalValue := totalValue
      employeeCount := employeeCount
      averageHoursPerEmployee :=
        if 0 < employeeCount then jsDiv (.fin totalHours) (.fin employeeCount) else .fin 0
      averageValuePerEmployee :=
        if 0 < employeeCount then jsDiv (.fin totalValue) (.fin employeeCount) else .fin 0 }

/-- `calculateOverallTotals` of `ProjectsSummaryComponent`: three
independent sum-reductions over the summaries. -/
def calculateOverallTotals (summaries : List ProjectSummary) : OverallTotals :=
  { totalHours := summaries.foldl (fun sum summary => sum + summary.totalHours) 0
    totalValue := summaries.foldl (fun sum summary => sum + summary.totalValue) 0
    totalEmployees := summaries.foldl (fun sum summary => sum + summary.employeeCount) 0 }

/-- The chart series the component hands to Chart.js, reduced to its data
content: the labels array and the two parallel dataset `data` arrays. -/
structure ChartSeries where
  labels : List String
  hours : List ℚ
  values : List ℚ
deriving DecidableEq, Repr

/-- `getEmptyChartData`: the canonical "no data" shape. -/
def getEmptyChartData : ChartSeries :=
  { labels := [], hours := [], values := [] }

/-- `getChartDataForProject` of `ProjectsSummaryComponent`: distinct
assigned employee ids (spread of a `Set`, i.e. `dedup` in first-seen
order), the employees relation filtered to those ids (preserving the
employees-array order), and per employee the `find`-selected FIRST
matching work entry (with the dead `: 0` fallback of the ternary). -/
def getChartDataForProject (employees : List Employee)
    (projectWorkData : List EmployeeWorkData) : ChartSeries :=
  let assignedEmployeeIds := (projectWorkData.map (·.employeeId)).dedup
  let assignedEmployees := employees.filter fun emp => assignedEmployeeIds.contains emp.id
  if assignedEmployees.isEmpty then getEmptyChartData
  else
    { labels := assignedEmployees.map (·.fullName)
      hours := assignedEmployees.map fun employee =>
        match projectWorkData.find? (fun data => data.employeeId == employee.id) with
        | some workEntry => workEntry.hoursWorked
        | none => 0
      values := assignedEmployees.map fun employee =>
        match projectWorkData.find? (fun data => data.employeeId == employee.id) with
        | some workEntry => workEntry.monetaryValue
        | none => 0 }

/-- `getChartData` of `ProjectsSummaryComponent`. The guard
`!this.selectedProject` is falsy exactly for the number 0 here, and
`Number(selectedProject)` is the identity on numbers. -/
def getChartData (selectedProject : ℕ) (employees : List Employee)
    (workData : List EmployeeWorkData) : ChartSeries :=
  if selectedProject == 0 || employees.isEmpty || workData.isEmpty then
    getEmptyChartData
  else
    let projectWorkData := workData.filter fun data => data.projectId == selectedProject
    if projectWorkData.isEmpty then getEmptyChartData
    else getChartDataForProject employees projectWorkData

/-- One row of the year projection's monthly breakdown
(year-projection.model). `month` is an `Option` because the source's
`getMonthName` indexes a 12-element array without wrapping, which in
JavaScript yields `undefined` out of range. -/
structure MonthlyProjection where
  month : Option String
  monthIndex : ℕ
  projectedHours : JsNum
  projectedValue : JsNum
  cumulativeHours : JsNum
  cumulativeValue : JsNum
deriving DecidableEq, Repr

/-- `YearProjection` (year-projection.model). -/
structure YearProjection where
  totalProjectedHours : JsNum
  totalProjectedValue : JsNum
  activeProjects : ℕ
  activeEmployees : ℕ
  averageHoursPerMonth : JsNum
  averageValuePerMonth : JsNum
  remainingMonths : ℕ
  monthlyBreakdown : List MonthlyProjection
deriving DecidableEq, Repr

/-- `toLowerCase` of the source, written as a structural character-wise
map (the same map `String.toLower` performs) so that concrete inputs
evaluate inside proofs. -/
def jsToLower (s : String) : String := ⟨s.data.map Char.toLower⟩

/-- The month-name table of `getMonthName`. -/
def monthNames : List String :=
  ["January", "February", "March", "April", "May", "June",
   "July", "August", "September", "October", "November", "December"]

/-- `getMonthName` of `YearProjectionComponent`: an unguarded index into
the 12-element table (`none` models JavaScript's `undefined`). -/
def getMonthName (monthIndex : ℕ) : Option String :=
  monthNames[monthIndex]?

/-- `calculateYearProjection` of `YearProjectionComponent`, parameterised
by `currentMonth = currentDate.getMonth()` (always 0–11 for a real date).
Note the UNGUARDED division by `uniqueEmployees.size * 12`: with no work
data this is `0 / 0`, i.e. `NaN` in JavaScript. The mutable
`activeEmployeeIds` set built by the nested `forEach` is rendered as the
`dedup` of the concatenation, which has the same size. -/
def calculateYearProjection (currentMonth : ℕ) (projects : List Project)
    (workData : List EmployeeWorkData) : YearProjection :=
  let activeProjects := projects.filter fun project =>
    jsToLower project.status ≠ "completed"
  let remainingMonths := 12 - currentMonth
  let totalHistoricalHours : ℚ := workData.foldl (fun sum data => sum + data.hoursWorked) 0
  let totalHistoricalValue : ℚ := workData.foldl (fun sum data => sum + data.monetaryValue) 0
  let uniqueEmployees := (workData.map (·.employeeId)).dedup
  let averageHoursPerEmployeePerMonth :=
    jsDiv (.fin totalHistoricalHours) (.fin (uniqueEmployees.length * 12))
  let averageValuePerEmployeePerMonth :=
    jsDiv (.fin totalHistoricalValue) (.fin (uniqueEmployees.length * 12))
  let activeEmployeeIds :=
    (activeProjects.flatMap fun project =>
      (workData.filter fun data => data.projectId == project.id).map (·.employeeId)).dedup
  let activeEmployeeCount := activeEmployeeIds.length
  let projectedHoursPerMonth := jsMul averageHoursPerEmployeePerMonth (.fin activeEmployeeCount)
  let projectedValuePerMonth := jsMul averageValuePerEmployeePerMonth (.fin activeEmployeeCount)
  let monthlyBreakdown := (List.range remainingMonths).map fun i =>
    let monthIndex := currentMonth + i
    { month := getMonthName monthIndex
      monthIndex := monthIndex
      projectedHours := projectedHoursPerMonth
      projectedValue := projectedValuePerMonth
      cumulativeHours := jsMul projectedHoursPerMonth (.fin (i + 1))
      cumulativeValue := jsMul projectedValuePerMonth (.fin (i + 1)) }
  { totalProjectedHours := jsMul projectedHoursPerMonth (.fin remainingMonths)
    totalProjectedValue := jsMul projectedValuePerMonth (.fin remainingMonths)
    activeProjects := activeProjects.length
    activeEmployees := activeEmployeeCount
    averageHoursPerMonth := projectedHoursPerMonth
    averageValuePerMonth := projectedValuePerMonth
    remainingMonths := remainingMonths
    monthlyBreakdown := monthlyBreakdown }

/-! ## Helper lemmas -/

/-- A `reduce((sum, x) => sum + f(x), a)` is `a` plus the sum of the mapped list. -/
lemma foldl_add_eq_sum {α M : Type*} [AddCommMonoid M] (f : α → M) (l : List α) (a : M) :
    l.foldl (fun sum x => sum + f x) a = a + (l.map f).sum := by
  induction l generalizing a with
  | nil => simp
  | cons x t ih => simp only [List.foldl_cons, ih, List.map_cons, List.sum_cons, add_assoc]

/-- `jsDiv` on finite values with a nonzero divisor is exact rational division. -/
lemma jsDiv_fin_of_ne {a c : ℚ} (hc : c ≠ 0) : jsDiv (.fin a) (.fin c) = .fin (a / c) := by
  simp [jsDiv, hc]

/-- `jsMul` on finite values is exact rational multiplication. -/
lemma jsMul_fin (a b : ℚ) : jsMul (.fin a) (.fin b) = .fin (a * b) := rfl

/-- JavaScript's `0 / 0` is `NaN`. -/
lemma jsDiv_zero_zero : jsDiv (.fin 0) (.fin 0) = .nan := by simp [jsDiv]

/-- `NaN` propagates through multiplication. -/
lemma jsMul_nan_left (x : JsNum) : jsMul .nan x = .nan := by cases x <;> rfl

/-- Flat-mapping a constantly empty function yields the empty list. -/
lemma flatMap_nil_fun {α β : Type*} (l : List α) :
    (l.flatMap fun _ => ([] : List β)) = [] := by
  induction l with
  | nil => rfl
  | cons x t ih => simp [List.flatMap, ih]

/-! ## Claims -/

/-- C1: `calculateProjectSummaries` returns one summary per project, in
input project order, with `totalHours`/`totalValue` the sums over the
assignments matching the project's id, `employeeCount` the number of
distinct employee ids among them, both averages equal to total divided by
`employeeCount` when that is positive and `0` otherwise (always a finite
number, never NaN or Infinity), and a project with zero matching
assignments gets an all-zero summary. -/
theorem calculateProjectSummaries_spec (projects : List Project)
    (workData : List EmployeeWorkData) :
    (calculateProjectSummaries projects workData
      = projects.map fun project =>
          { projectId := project.id
            projectName := project.name
            projectStatus := project.status
            totalHours :=
              (((workData.filter fun d => d.projectId == project.id).map (·.hoursWorked)).sum : ℚ)
            totalValue :=
              (((workData.filter fun d => d.projectId == project.id).map (·.monetaryValue)).sum : ℚ)
            employeeCount :=
              ((workData.filter fun d => d.projectId == project.id).map (·.employeeId)).toFinset.card
            averageHoursPerEmployee :=
              if 0 < ((workData.filter fun d => d.projectId == project.id).map
                  (·.employeeId)).toFinset.card then
                .fin ((((workData.filter fun d => d.projectId == project.id).map
                    (·.hoursWorked)).sum : ℚ) /
                  (((workData.filter fun d => d.projectId == project.id).map
                      (·.employeeId)).toFinset.card : ℚ))
              else .fin 0
            averageValuePerEmployee :=
              if 0 < ((workData.filter fun d => d.projectId == project.id).map
                  (·.employeeId)).toFinset.card then
                .fin ((((workData.filter fun d => d.projectId == project.id).map
                    (·.monetaryValue)).sum : ℚ) /
                  (((workData.filter fun d => d.projectId == project.id).map
                      (·.employeeId)).toFinset.card : ℚ))
              else .fin 0 })
    ∧ ∀ s ∈ calculateProjectSummaries projects workData,
        (workData.filter fun d => d.projectId == s.projectId) = [] →
        s.totalHours = 0 ∧ s.totalValue = 0 ∧ s.employeeCount = 0 ∧
        s.averageHoursPerEmployee = .fin 0 ∧ s.averageValuePerEmployee = .fin 0 := by
  constructor
  · unfold calculateProjectSummaries
    refine List.map_congr_left fun project _ => ?_
    have hsumH := foldl_add_eq_sum (fun d : EmployeeWorkData => d.hoursWorked)
      (workData.filter fun d => d.projectId == project.id) 0
    have hsumV := foldl_add_eq_sum (fun d : EmployeeWorkData => d.monetaryValue)
      (workData.filter fun d => d.projectId == project.id) 0
    have hcard := (List.card_toFinset
      ((workData.filter fun d => d.projectId == project.id).map (·.employeeId))).symm
    simp only [zero_add] at hsumH hsumV
    simp only [ProjectSummary.mk.injEq]
    refine ⟨trivial, trivial, trivial, by simpa using hsumH, by simpa using hsumV,
      by simpa using hcard, ?_, ?_⟩ <;>
    · simp only [hsumH, hsumV, hcard]
      split
      · next h =>
          rw [jsDiv_fin_of_ne]
          exact_mod_cast Nat.pos_iff_ne_zero.mp (by simpa using h)
      · rfl
  · intro s hs hempty
    unfold calculateProjectSummaries at hs
    rw [List.mem_map] at hs
    obtain ⟨project, hp, rfl⟩ := hs
    simp only at hempty
    simp [hempty]

/-- C1 witness: the zero-assignment branch of the claim at a concrete
input (one project, one assignment belonging to a different project). -/
theorem calculateProjectSummaries_spec_witness :
    ({ projectId := 1, projectName := "P1", projectStatus := "In Progress",
       totalHours := 0, totalValue := 0, employeeCount := 0,
       averageHoursPerEmployee := .fin 0, averageValuePerEmployee := .fin 0 } :
      ProjectSummary).totalHours = 0 ∧
    ({ projectId := 1, projectName := "P1", projectStatus := "In Progress",
       totalHours := 0, totalValue := 0, employeeCount := 0,
       averageHoursPerEmployee := .fin 0, averageValuePerEmployee := .fin 0 } :
      ProjectSummary).employeeCount = 0 :=
  have h := (calculateProjectSummaries_spec [⟨1, "P1", "d", "In Progress"⟩]
    [⟨1, 2, 5, 50⟩]).2
    { projectId := 1, projectName := "P1", projectStatus := "In Progress",
      totalHours := 0, totalValue := 0, employeeCount := 0,
      averageHoursPerEmployee := .fin 0, averageValuePerEmployee := .fin 0 }
    (by decide) (by decide)
  ⟨h.1, h.2.2.1⟩

/-- C5: `calculateOverallTotals` is exactly the element-wise sum of the
summaries' `totalHours`, `totalValue` and `employeeCount` (no
deduplication), and the result is invariant under any permutation of the
input array. -/
theorem calculateOverallTotals_spec :
    (∀ summaries : List ProjectSummary,
      calculateOverallTotals summaries =
        { totalHours := (summaries.map (·.totalHours)).sum
          totalValue := (summaries.map (·.totalValue)).sum
          totalEmployees := (summaries.map (·.employeeCount)).sum })
    ∧ ∀ s t : List ProjectSummary, s.Perm t →
        calculateOverallTotals s = calculateOverallTotals t := by
  have hmain : ∀ summaries : List ProjectSummary,
      calculateOverallTotals summaries =
        { totalHours := (summaries.map (·.totalHours)).sum
          totalValue := (summaries.map (·.totalValue)).sum
          totalEmployees := (summaries.map (·.employeeCount)).sum } := by
    intro summaries
    unfold calculateOverallTotals
    simp only [OverallTotals.mk.injEq]
    refine ⟨by simpa using foldl_add_eq_sum (fun s : ProjectSummary => s.totalHours) summaries 0,
      by simpa using foldl_add_eq_sum (fun s : ProjectSummary => s.totalValue) summaries 0,
      by simpa using foldl_add_eq_sum (fun s : ProjectSummary => s.employeeCount) summaries 0⟩
  refine ⟨hmain, fun s t hperm => ?_⟩
  rw [hmain s, hmain t]
  simp only [OverallTotals.mk.injEq]
  exact ⟨(hperm.map _).sum_eq, (hperm.map _).sum_eq, (hperm.map _).sum_eq⟩

/-- C5 witness: permutation invariance at a concrete pair of summaries. -/
theorem calculateOverallTotals_spec_witness :
    calculateOverallTotals
      [⟨1, "A", "s", 1, 2, 3, .fin 0, .fin 0⟩, ⟨2, "B", "t", 4, 5, 6, .fin 1, .fin 1⟩]
    = calculateOverallTotals
      [⟨2, "B", "t", 4, 5, 6, .fin 1, .fin 1⟩, ⟨1, "A", "s", 1, 2, 3, .fin 0, .fin 0⟩] :=
  calculateOverallTotals_spec.2 _ _ (by decide)

/-- The spread-of-a-`Set` membership test of the source
(`assignedEmployeeIds.includes(emp.id)`) agrees with an `any` scan over
the project's work data. -/
lemma contains_dedup_map_eq_any (pw : List EmployeeWorkData) (e : Employee) :
    ((pw.map (·.employeeId)).dedup).contains e.id
      = pw.any fun d => d.employeeId == e.id := by
  rw [Bool.eq_iff_iff]
  constructor
  · intro h
    obtain ⟨a, ha, hbeq⟩ := List.contains_iff_exists_mem_beq.mp h
    rw [List.mem_dedup, List.mem_map] at ha
    obtain ⟨d, hd, rfl⟩ := ha
    exact List.any_eq_true.mpr ⟨d, hd, by simpa using (beq_iff_eq.mp hbeq).symm⟩
  · intro h
    obtain ⟨d, hd, hbeq⟩ := List.any_eq_true.mp h
    exact List.contains_iff_exists_mem_beq.mpr
      ⟨d.employeeId, List.mem_dedup.mpr (List.mem_map.mpr ⟨d, hd, rfl⟩),
        by simpa using (beq_iff_eq.mp hbeq).symm⟩

/-- C4 counterexample: with one employee record (id 1) and project-1 work
data containing an assignment that references the nonexistent employee
id 2, `getChartData` returns a truncated series that silently omits that
assignment; no referential-integrity error is raised or returned (the
result type has no error channel at all). -/
theorem getChartData_truncates_on_unresolved_employee :
    getChartData 1 [⟨1, "Alice", "Smith", "Alice Smith", 100000, 50⟩]
      [⟨1, 1, 100, 1000⟩, ⟨2, 1, 5, 50⟩]
    = { labels := ["Alice Smith"], hours := [100], values := [1000] } := by
  decide

/-- C4 amended: an assignment whose `employeeId` resolves to no record in
the employees relation is silently excluded: the labels of the series are
exactly the employees (in employees-array order) whose id occurs among the
given work data's employee ids, the parallel arrays stay aligned, and the
function always returns a plain series, never an error. -/
theorem getChartDataForProject_silently_drops_unresolved
    (employees : List Employee) (projectWorkData : List EmployeeWorkData) :
    (getChartDataForProject employees projectWorkData).labels
      = (employees.filter fun e => projectWorkData.any fun d => d.employeeId == e.id).map
          (·.fullName)
    ∧ (getChartDataForProject employees projectWorkData).hours.length
        = (getChartDataForProject employees projectWorkData).labels.length
    ∧ (getChartDataForProject employees projectWorkData).values.length
        = (getChartDataForProject employees projectWorkData).labels.length := by
  have hfilter : (employees.filter fun emp =>
      ((projectWorkData.map (·.employeeId)).dedup).contains emp.id)
      = employees.filter fun e => projectWorkData.any fun d => d.employeeId == e.id :=
    List.filter_congr fun e _ => contains_dedup_map_eq_any projectWorkData e
  unfold getChartDataForProject
  simp only [hfilter]
  split
  · next h =>
      rw [List.isEmpty_iff.mp h]
      exact ⟨rfl, rfl, rfl⟩
  · next h => simp [getEmptyChartData]

/-- C7: for a project id with zero matching work assignments, and likewise
whenever none of the matching assignments' employee ids resolve to an
employee record, `getChartData` returns the canonical empty shape: labels,
hours and values are all empty arrays. -/
theorem getChartData_empty_shape (selectedProject : ℕ) (employees : List Employee)
    (workData : List EmployeeWorkData) :
    ((workData.filter fun d => d.projectId == selectedProject) = [] →
      getChartData selectedProject employees workData
        = { labels := [], hours := [], values := [] })
    ∧ ((∀ d ∈ workData.filter fun d => d.projectId == selectedProject,
          ∀ e ∈ employees, e.id ≠ d.employeeId) →
      getChartData selectedProject employees workData
        = { labels := [], hours := [], values := [] }) := by
  constructor
  · intro hempty
    unfold getChartData
    split
    · rfl
    · rw [hempty]
      rfl
  · intro hnone
    unfold getChartData
    split
    · rfl
    · dsimp only
      split
      · rfl
      · unfold getChartDataForProject
        dsimp only
        have hassigned : (employees.filter fun emp =>
            (((workData.filter fun d => d.projectId == selectedProject).map
              (·.employeeId)).dedup).contains emp.id) = [] := by
          refine List.filter_eq_nil_iff.mpr fun e he => ?_
          rw [contains_dedup_map_eq_any, List.any_eq_true]
          rintro ⟨d, hd, hbeq⟩
          exact hnone d hd e he (beq_iff_eq.mp hbeq).symm
        rw [hassigned]
        rfl

/-- C7 witness: the empty shape at concrete inputs, once for a project id
with no matching assignments and once where the only matching assignment's
employee id resolves to no employee. -/
theorem getChartData_empty_shape_witness :
    getChartData 5 [⟨1, "Alice", "Smith", "Alice Smith", 100000, 50⟩]
      [⟨1, 1, 100, 1000⟩] = { labels := [], hours := [], values := [] }
    ∧ getChartData 1 [⟨2, "Bob", "Jones", "Bob Jones", 90000, 45⟩]
      [⟨1, 1, 100, 1000⟩] = { labels := [], hours := [], values := [] } :=
  ⟨(getChartData_empty_shape 5 [⟨1, "Alice", "Smith", "Alice Smith", 100000, 50⟩]
      [⟨1, 1, 100, 1000⟩]).1 (by decide),
   (getChartData_empty_shape 1 [⟨2, "Bob", "Jones", "Bob Jones", 90000, 45⟩]
      [⟨1, 1, 100, 1000⟩]).2 (by decide)⟩

/-- `find` returns the head of the filtered list. -/
lemma find?_eq_some_of_filter_eq_cons {α : Type*} {p : α → Bool} {l : List α} {a : α}
    {t : List α} (h : l.filter p = a :: t) : l.find? p = some a := by
  induction l with
  | nil => simp at h
  | cons x xs ih =>
    by_cases hx : p x
    · rw [List.filter_cons_of_pos hx] at h
      injection h with h1 h2
      rw [List.find?_cons_of_pos _ hx, h1]
    · rw [List.filter_cons_of_neg hx] at h
      rw [List.find?_cons_of_neg _ hx]
      exact ih h

/-- Splitting a mapped sum along a Boolean predicate. -/
lemma sum_map_filter_split {α M : Type*} [AddCommMonoid M] (f : α → M) (p : α → Bool)
    (l : List α) :
    (l.map f).sum = ((l.filter p).map f).sum + ((l.filter fun a => !(p a)).map f).sum := by
  induction l with
  | nil => simp
  | cons x t ih =>
    by_cases hx : p x
    · simp [List.filter_cons, hx, ih, add_assoc]
    · simp [List.filter_cons, hx, ih, add_assoc, add_left_comm]

/-- C8: in the chart series, the entry for an employee comes from the
FIRST matching work-assignment row (input order) only, while the project
summary's totals include every duplicate row: the summary sum splits into
all of that employee's rows plus everyone else's. -/
theorem chartSeries_uses_first_matching_row
    (employees : List Employee) (workData : List EmployeeWorkData) (selectedProject : ℕ)
    (pw : List EmployeeWorkData)
    (hpw : pw = workData.filter fun d => d.projectId == selectedProject)
    (k : ℕ) (e : Employee)
    (he : (employees.filter fun emp => ((pw.map (·.employeeId)).dedup).contains emp.id)[k]?
        = some e)
    (first : EmployeeWorkData) (rest : List EmployeeWorkData)
    (hf : (pw.filter fun d => d.employeeId == e.id) = first :: rest) :
    (getChartDataForProject employees pw).hours[k]? = some first.hoursWorked
    ∧ (getChartDataForProject employees pw).values[k]? = some first.monetaryValue
    ∧ ∀ p : Project, p.id = selectedProject →
        ∀ s ∈ calculateProjectSummaries [p] workData,
          s.totalHours = (first.hoursWorked + (rest.map (·.hoursWorked)).sum)
              + ((pw.filter fun d => !(d.employeeId == e.id)).map (·.hoursWorked)).sum
          ∧ s.totalValue = (first.monetaryValue + (rest.map (·.monetaryValue)).sum)
              + ((pw.filter fun d => !(d.employeeId == e.id)).map (·.monetaryValue)).sum := by
  have hfind : pw.find? (fun d => d.employeeId == e.id) = some first :=
    find?_eq_some_of_filter_eq_cons hf
  have hne : ((employees.filter fun emp =>
      ((pw.map (·.employeeId)).dedup).contains emp.id).isEmpty) ≠ true := by
    intro hemp
    rw [List.isEmpty_iff.mp hemp] at he
    simp at he
  refine ⟨?_, ?_, ?_⟩
  · unfold getChartDataForProject
    dsimp only
    rw [if_neg hne, List.getElem?_map, he]
    simp [hfind]
  · unfold getChartDataForProject
    dsimp only
    rw [if_neg hne, List.getElem?_map, he]
    simp [hfind]
  · intro p hp s hs
    unfold calculateProjectSummaries at hs
    simp only [List.map_cons, List.map_nil, List.mem_singleton] at hs
    subst hs
    have hsplitH := sum_map_filter_split (fun d : EmployeeWorkData => d.hoursWorked)
      (fun d => d.employeeId == e.id) pw
    have hsplitV := sum_map_filter_split (fun d : EmployeeWorkData => d.monetaryValue)
      (fun d => d.employeeId == e.id) pw
    rw [hf] at hsplitH hsplitV
    constructor
    · show (workData.filter fun d => d.projectId == p.id).foldl
        (fun sum d => sum + d.hoursWorked) 0 = _
      rw [foldl_add_eq_sum, zero_add, hp, ← hpw, hsplitH]
      simp
    · show (workData.filter fun d => d.projectId == p.id).foldl
        (fun sum d => sum + d.monetaryValue) 0 = _
      rw [foldl_add_eq_sum, zero_add, hp, ← hpw, hsplitV]
      simp

/-- C8 witness: two duplicate (employee 1, project 1) rows; the series
entry reports the first row's 100 hours, not the 107-hour sum. -/
theorem chartSeries_uses_first_matching_row_witness :
    (getChartDataForProject [⟨1, "Alice", "Smith", "Alice Smith", 100000, 50⟩]
      [⟨1, 1, 100, 1000⟩, ⟨1, 1, 7, 70⟩]).hours[0]? = some 100 :=
  (chartSeries_uses_first_matching_row
    [⟨1, "Alice", "Smith", "Alice Smith", 100000, 50⟩]
    [⟨1, 1, 100, 1000⟩, ⟨1, 1, 7, 70⟩] 1
    [⟨1, 1, 100, 1000⟩, ⟨1, 1, 7, 70⟩] (by decide)
    0 ⟨1, "Alice", "Smith", "Alice Smith", 100000, 50⟩ (by decide)
    ⟨1, 1, 100, 1000⟩ [⟨1, 1, 7, 70⟩] (by decide)).1

/-- A member of a list found at position `j` that satisfies the filter
predicate appears at some position of the filtered list. -/
lemma getElem?_filter_of_getElem? {α : Type*} {p : α → Bool} {l : List α} {j : ℕ} {e : α}
    (hj : l[j]? = some e) (hpe : p e = true) : ∃ k : ℕ, (l.filter p)[k]? = some e := by
  induction l generalizing j with
  | nil => simp at hj
  | cons x xs ih =>
    cases j with
    | zero =>
        rw [List.getElem?_cons_zero] at hj
        injection hj with hx
        subst hx
        exact ⟨0, by rw [List.filter_cons_of_pos hpe, List.getElem?_cons_zero]⟩
    | succ j =>
        rw [List.getElem?_cons_succ] at hj
        obtain ⟨k, hk⟩ := ih hj
        by_cases hx : p x
        · exact ⟨k + 1, by rw [List.filter_cons_of_pos hx, List.getElem?_cons_succ]; exact hk⟩
        · exact ⟨k, by rw [List.filter_cons_of_neg hx]; exact hk⟩

/-- Filtering preserves the relative order of any two surviving elements. -/
lemma filter_preserves_order {α : Type*} {p : α → Bool} {l : List α} :
    ∀ {i j : ℕ} {a b : α}, i < j → l[i]? = some a → l[j]? = some b →
      p a = true → p b = true →
      ∃ iF jF : ℕ, iF < jF ∧ (l.filter p)[iF]? = some a ∧ (l.filter p)[jF]? = some b := by
  induction l with
  | nil =>
    intro i j a b _ ha _ _ _
    simp at ha
  | cons x xs ih =>
    intro i j a b hij ha hb hpa hpb
    cases j with
    | zero => omega
    | succ j =>
      rw [List.getElem?_cons_succ] at hb
      cases i with
      | zero =>
          rw [List.getElem?_cons_zero] at ha
          injection ha with hax
          subst hax
          obtain ⟨k, hk⟩ := getElem?_filter_of_getElem? hb hpb
          exact ⟨0, k + 1, Nat.succ_pos k,
            by rw [List.filter_cons_of_pos hpa, List.getElem?_cons_zero],
            by rw [List.filter_cons_of_pos hpa, List.getElem?_cons_succ]; exact hk⟩
      | succ i =>
          rw [List.getElem?_cons_succ] at ha
          obtain ⟨iF, jF, hFlt, hFa, hFb⟩ := ih (by omega) ha hb hpa hpb
          by_cases hx : p x
          · exact ⟨iF + 1, jF + 1, by omega,
              by rw [List.filter_cons_of_pos hx, List.getElem?_cons_succ]; exact hFa,
              by rw [List.filter_cons_of_pos hx, List.getElem?_cons_succ]; exact hFb⟩
          · exact ⟨iF, jF, hFlt,
              by rw [List.filter_cons_of_neg hx]; exact hFa,
              by rw [List.filter_cons_of_neg hx]; exact hFb⟩

/-- C9: the series labels follow the order of the employees relation: for
any two employees both present in the project's assignments, the one at
the earlier position in the employees array gets the earlier label
position, regardless of assignment order or id ordering. -/
theorem chartSeries_labels_follow_employees_order
    (employees : List Employee) (projectWorkData : List EmployeeWorkData)
    (i j : ℕ) (e₁ e₂ : Employee) (hij : i < j)
    (h1 : employees[i]? = some e₁) (h2 : employees[j]? = some e₂)
    (hm1 : ∃ d ∈ projectWorkData, d.employeeId = e₁.id)
    (hm2 : ∃ d ∈ projectWorkData, d.employeeId = e₂.id) :
    ∃ iL jL : ℕ, iL < jL
      ∧ (getChartDataForProject employees projectWorkData).labels[iL]? = some e₁.fullName
      ∧ (getChartDataForProject employees projectWorkData).labels[jL]? = some e₂.fullName := by
  have hp1 : (((projectWorkData.map (·.employeeId)).dedup).contains e₁.id) = true := by
    rw [contains_dedup_map_eq_any, List.any_eq_true]
    obtain ⟨d, hd, hde⟩ := hm1
    exact ⟨d, hd, by simpa using hde⟩
  have hp2 : (((projectWorkData.map (·.employeeId)).dedup).contains e₂.id) = true := by
    rw [contains_dedup_map_eq_any, List.any_eq_true]
    obtain ⟨d, hd, hde⟩ := hm2
    exact ⟨d, hd, by simpa using hde⟩
  obtain ⟨iF, jF, hlt, hFa, hFb⟩ :=
    filter_preserves_order (l := employees)
      (p := fun emp => ((projectWorkData.map (·.employeeId)).dedup).contains emp.id)
      hij h1 h2 hp1 hp2
  have hne : ((employees.filter fun emp =>
      ((projectWorkData.map (·.employeeId)).dedup).contains emp.id).isEmpty) ≠ true := by
    intro hemp
    rw [List.isEmpty_iff.mp hemp] at hFa
    simp at hFa
  refine ⟨iF, jF, hlt, ?_, ?_⟩
  · unfold getChartDataForProject
    dsimp only
    rw [if_neg hne, List.getElem?_map, hFa]
    rfl
  · unfold getChartDataForProject
    dsimp only
    rw [if_neg hne, List.getElem?_map, hFb]
    rfl

/-- C9 witness: with employee 2 listed before employee 1 in the employees
relation and the assignments in the opposite order, the labels still
follow the employees relation. -/
theorem chartSeries_labels_follow_employees_order_witness :
    ∃ iL jL : ℕ, iL < jL
      ∧ (getChartDataForProject
          [⟨2, "Bob", "Jones", "Bob Jones", 90000, 45⟩,
           ⟨1, "Alice", "Smith", "Alice Smith", 100000, 50⟩]
          [⟨1, 1, 100, 1000⟩, ⟨2, 1, 5, 50⟩]).labels[iL]? = some "Bob Jones"
      ∧ (getChartDataForProject
          [⟨2, "Bob", "Jones", "Bob Jones", 90000, 45⟩,
           ⟨1, "Alice", "Smith", "Alice Smith", 100000, 50⟩]
          [⟨1, 1, 100, 1000⟩, ⟨2, 1, 5, 50⟩]).labels[jL]? = some "Alice Smith" :=
  chartSeries_labels_follow_employees_order
    [⟨2, "Bob", "Jones", "Bob Jones", 90000, 45⟩,
     ⟨1, "Alice", "Smith", "Alice Smith", 100000, 50⟩]
    [⟨1, 1, 100, 1000⟩, ⟨2, 1, 5, 50⟩]
    0 1 ⟨2, "Bob", "Jones", "Bob Jones", 90000, 45⟩
    ⟨1, "Alice", "Smith", "Alice Smith", 100000, 50⟩
    (by decide) (by decide) (by decide)
    ⟨⟨2, 1, 5, 50⟩, by decide⟩ ⟨⟨1, 1, 100, 1000⟩, by decide⟩

/-- The employee ids collected by the nested `forEach` over active
projects are, as a set, the employee ids of the assignments whose
`projectId` belongs to an active project. -/
lemma activeEmployeeIds_toFinset (A : List Project) (workData : List EmployeeWorkData) :
    (A.flatMap fun p =>
        (workData.filter fun d => d.projectId == p.id).map (·.employeeId)).toFinset
      = ((workData.filter fun d => A.any fun p => p.id == d.projectId).map
          (·.employeeId)).toFinset := by
  ext x
  simp only [List.mem_toFinset, List.mem_flatMap, List.mem_map, List.mem_filter,
    List.any_eq_true, beq_iff_eq]
  constructor
  · rintro ⟨p, hp, d, ⟨hd, hdp⟩, rfl⟩
    exact ⟨d, ⟨hd, p, hp, hdp.symm⟩, rfl⟩
  · rintro ⟨d, ⟨hd, p, hp, hpd⟩, rfl⟩
    exact ⟨p, hp, d, ⟨hd, hpd.symm⟩, rfl⟩

/-- C2: for a valid month index and at least one employee id in the work
data, `calculateYearProjection` returns exactly the run-rate pipeline of
the claim: historical sums over ALL assignments, per-employee-per-month
averages over `u * 12` with `u` the global distinct-employee count,
active projects those whose lower-cased status is not "completed", the
active employee count the distinct employee ids on active projects, and
the top-level fields the stated products. -/
theorem calculateYearProjection_spec (currentMonth : ℕ) (hm : currentMonth < 12)
    (projects : List Project) (workData : List EmployeeWorkData)
    (u : ℕ) (hu : u = ((workData.map (·.employeeId)).toFinset.card)) (hu0 : 0 < u)
    (A : List Project) (hA : A = projects.filter fun p => jsToLower p.status ≠ "completed")
    (aEmp : ℕ)
    (haEmp : aEmp = ((workData.filter fun d => A.any fun p => p.id == d.projectId).map
        (·.employeeId)).toFinset.card)
    (avgH avgV : ℚ)
    (havgH : avgH = ((workData.map (·.hoursWorked)).sum : ℚ) / ((u * 12 : ℕ) : ℚ))
    (havgV : avgV = ((workData.map (·.monetaryValue)).sum : ℚ) / ((u * 12 : ℕ) : ℚ)) :
    (calculateYearProjection currentMonth projects workData).totalProjectedHours
        = .fin ((avgH * aEmp) * ((12 - currentMonth : ℕ) : ℚ))
    ∧ (calculateYearProjection currentMonth projects workData).totalProjectedValue
        = .fin ((avgV * aEmp) * ((12 - currentMonth : ℕ) : ℚ))
    ∧ (calculateYearProjection currentMonth projects workData).activeProjects = A.length
    ∧ (calculateYearProjection currentMonth projects workData).activeEmployees = aEmp
    ∧ (calculateYearProjection currentMonth projects workData).averageHoursPerMonth
        = .fin (avgH * aEmp)
    ∧ (calculateYearProjection currentMonth projects workData).averageValuePerMonth
        = .fin (avgV * aEmp)
    ∧ (calculateYearProjection currentMonth projects workData).remainingMonths
        = 12 - currentMonth := by
  subst hu hA haEmp havgH havgV
  have hlen : ((workData.map (·.employeeId)).dedup).length
      = (workData.map (·.employeeId)).toFinset.card :=
    (List.card_toFinset _).symm
  have hsumH : workData.foldl (fun sum d => sum + d.hoursWorked) 0
      = ((workData.map (·.hoursWorked)).sum : ℚ) := by
    simpa using foldl_add_eq_sum (fun d : EmployeeWorkData => d.hoursWorked) workData 0
  have hsumV : workData.foldl (fun sum d => sum + d.monetaryValue) 0
      = ((workData.map (·.monetaryValue)).sum : ℚ) := by
    simpa using foldl_add_eq_sum (fun d : EmployeeWorkData => d.monetaryValue) workData 0
  have haCount : ((projects.filter fun p => jsToLower p.status ≠ "completed").flatMap fun p =>
        (workData.filter fun d => d.projectId == p.id).map (·.employeeId)).dedup.length
      = ((workData.filter fun d =>
          (projects.filter fun p => jsToLower p.status ≠ "completed").any fun p =>
            p.id == d.projectId).map (·.employeeId)).toFinset.card := by
    rw [← List.card_toFinset, activeEmployeeIds_toFinset]
  have hdvd : (((workData.map (·.employeeId)).toFinset.card : ℚ) * 12) ≠ 0 :=
    mul_ne_zero (by exact_mod_cast hu0.ne') (by norm_num)
  have hcast : ((((workData.map (·.employeeId)).toFinset.card * 12 : ℕ)) : ℚ)
      = (((workData.map (·.employeeId)).toFinset.card : ℚ)) * 12 := by
    push_cast
    rfl
  unfold calculateYearProjection
  dsimp only
  simp only [hsumH, hsumV, hlen, haCount, jsDiv_fin_of_ne hdvd, jsMul_fin, hcast]
  refine ⟨?_, ?_, ?_, ?_, ?_, ?_, ?_⟩ <;> first | rfl | trivial

/-- C2 witness: scenario B of the spec — two projects (one completed), two
employees with 120 h / $4800 each, January: projected hours for the year
are `240 / 24 * 1 * 12 = 120`. -/
theorem calculateYearProjection_spec_witness :
    (calculateYearProjection 0
      [⟨1, "Website", "d", "In Progress"⟩, ⟨2, "Legacy", "d", "Completed"⟩]
      [⟨1, 1, 120, 4800⟩, ⟨2, 2, 120, 4800⟩]).totalProjectedHours = .fin 120 := by
  have h := (calculateYearProjection_spec 0 (by decide)
    [⟨1, "Website", "d", "In Progress"⟩, ⟨2, "Legacy", "d", "Completed"⟩]
    [⟨1, 1, 120, 4800⟩, ⟨2, 2, 120, 4800⟩]
    2 (by decide) (by decide)
    [⟨1, "Website", "d", "In Progress"⟩] (by decide)
    1 (by decide)
    10 400
    (by simp only [List.map_cons, List.map_nil, List.sum_cons, List.sum_nil]; norm_num)
    (by simp only [List.map_cons, List.map_nil, List.sum_cons, List.sum_nil]; norm_num)).1
  rw [h]
  simp only [JsNum.fin.injEq]
  norm_num

/-- C6: the monthly breakdown has exactly `12 - currentMonth` entries;
entry `i` carries the unwrapped `monthIndex = currentMonth + i`, the name
of calendar month `monthIndex mod 12`, the same flat per-month estimate in
every entry, and cumulative values `perMonth * (i + 1)`. -/
theorem calculateYearProjection_breakdown (currentMonth : ℕ) (hm : currentMonth < 12)
    (projects : List Project) (workData : List EmployeeWorkData) :
    (calculateYearProjection currentMonth projects workData).remainingMonths
        = 12 - currentMonth
    ∧ (calculateYearProjection currentMonth projects workData).monthlyBreakdown.length
        = 12 - currentMonth
    ∧ ∀ i, i < 12 - currentMonth →
        (calculateYearProjection currentMonth projects workData).monthlyBreakdown[i]?
          = some { month := monthNames[((currentMonth + i) % 12)]?
                   monthIndex := currentMonth + i
                   projectedHours :=
                     (calculateYearProjection currentMonth projects workData).averageHoursPerMonth
                   projectedValue :=
                     (calculateYearProjection currentMonth projects workData).averageValuePerMonth
                   cumulativeHours := jsMul
                     (calculateYearProjection currentMonth projects workData).averageHoursPerMonth
                     (.fin ((i : ℚ) + 1))
                   cumulativeValue := jsMul
                     (calculateYearProjection currentMonth projects workData).averageValuePerMonth
                     (.fin ((i : ℚ) + 1)) } := by
  refine ⟨rfl, ?_, ?_⟩
  · unfold calculateYearProjection
    dsimp only
    rw [List.length_map, List.length_range]
  · intro i hi
    have hmod : (currentMonth + i) % 12 = currentMonth + i := Nat.mod_eq_of_lt (by omega)
    rw [hmod]
    unfold calculateYearProjection
    dsimp only
    simp only [List.getElem?_map, List.getElem?_range, hi, if_true, Option.map_some]
    rfl

/-- C6 witness: December (month index 11), empty data: the single
breakdown entry instantiated from the theorem. -/
theorem calculateYearProjection_breakdown_witness :
    (calculateYearProjection 11 [] []).monthlyBreakdown[0]?
      = some { month := monthNames[((11 + 0) % 12)]?
               monthIndex := 11 + 0
               projectedHours := (calculateYearProjection 11 [] []).averageHoursPerMonth
               projectedValue := (calculateYearProjection 11 [] []).averageValuePerMonth
               cumulativeHours := jsMul
                 (calculateYearProjection 11 [] []).averageHoursPerMonth
                 (.fin (((0 : ℕ) : ℚ) + 1))
               cumulativeValue := jsMul
                 (calculateYearProjection 11 [] []).averageValuePerMonth
                 (.fin (((0 : ℕ) : ℚ) + 1)) } :=
  (calculateYearProjection_breakdown 11 (by decide) [] []).2.2 0 (by decide)

/-- C10: for any valid month index, every breakdown entry's unwrapped
`monthIndex` stays at most 11, so the unguarded month-name lookup is in
bounds and the month field is always a defined month name. -/
theorem calculateYearProjection_monthIndex_bounded (currentMonth : ℕ) (hm : currentMonth < 12)
    (projects : List Project) (workData : List EmployeeWorkData) :
    ∀ entry ∈ (calculateYearProjection currentMonth projects workData).monthlyBreakdown,
      entry.monthIndex ≤ 11 ∧ ∃ name, entry.month = some name ∧ name ∈ monthNames := by
  intro entry hentry
  unfold calculateYearProjection at hentry
  dsimp only at hentry
  rw [List.mem_map] at hentry
  obtain ⟨i, hi, rfl⟩ := hentry
  rw [List.mem_range] at hi
  refine ⟨by dsimp only; omega, ?_⟩
  have hlt' : currentMonth + i < monthNames.length := by
    have : currentMonth + i < 12 := by omega
    simpa [monthNames] using this
  refine ⟨monthNames.get ⟨currentMonth + i, hlt'⟩, ?_, List.get_mem _ _ _⟩
  show getMonthName (currentMonth + i) = _
  unfold getMonthName
  rw [List.getElem?_eq_getElem hlt']
  simp [List.get_eq_getElem]

/-- C10 witness: December with empty data; the single entry has
`monthIndex = 11` and the defined name "December". -/
theorem calculateYearProjection_monthIndex_bounded_witness :
    ({ month := some "December", monthIndex := 11,
       projectedHours := JsNum.nan, projectedValue := JsNum.nan,
       cumulativeHours := JsNum.nan, cumulativeValue := JsNum.nan } :
        MonthlyProjection).monthIndex ≤ 11
    ∧ ∃ name,
      ({ month := some "December", monthIndex := 11,
         projectedHours := JsNum.nan, projectedValue := JsNum.nan,
         cumulativeHours := JsNum.nan, cumulativeValue := JsNum.nan } :
        MonthlyProjection).month = some name ∧ name ∈ monthNames :=
  calculateYearProjection_monthIndex_bounded 11 (by decide) [] []
    { month := some "December", monthIndex := 11,
      projectedHours := JsNum.nan, projectedValue := JsNum.nan,
      cumulativeHours := JsNum.nan, cumulativeValue := JsNum.nan }
    (by simp [calculateYearProjection, flatMap_nil_fun, jsDiv_zero_zero, jsMul_nan_left,
      getMonthName, monthNames])

/-- C3 (evidence of the code bug): with no work assignments at all, the
UNGUARDED division `totalHistoricalHours / (uniqueEmployees.size * 12)` is
JavaScript's `0 / 0 = NaN`, and the NaN propagates into the returned
averages and totals — not the `0` the claim (and the spec's zero-divisor
guard) promises. -/
theorem calculateYearProjection_nan_on_empty :
    (calculateYearProjection 0 [⟨1, "P1", "d", "In Progress"⟩] []).averageHoursPerMonth
        = JsNum.nan
    ∧ (calculateYearProjection 0 [⟨1, "P1", "d", "In Progress"⟩] []).averageValuePerMonth
        = JsNum.nan
    ∧ (calculateYearProjection 0 [⟨1, "P1", "d", "In Progress"⟩] []).totalProjectedHours
        = JsNum.nan
    ∧ (calculateYearProjection 0 [⟨1, "P1", "d", "In Progress"⟩] []).totalProjectedValue
        = JsNum.nan := by
  refine ⟨?_, ?_, ?_, ?_⟩ <;>
  simp [calculateYearProjection, flatMap_nil_fun, jsDiv_zero_zero, jsMul_nan_left]

end Serdio
